import Mathlib

/-!
Verification of the reverse-auction bid-validation and supplier-view logic of
this repository.  JavaScript numbers are embedded as rationals (ℚ); every
monetary value handled by the code in the relevant ranges is exact in ℚ.
JavaScript truthiness of a number (`x || y`) is embedded by `jsOr`, and
`Math.round` by `jsRound`.  Optional numeric fields (per-item overrides) are
encoded as ℚ with 0 standing for "absent", which coincides with the
JavaScript `||`-fallback the code applies to them.
-/

namespace RevAuction

/-- JavaScript `a || b` on numbers: `a` when truthy (nonzero), else `b`. -/
def jsOr (a b : ℚ) : ℚ := if a = 0 then b else a

/-- JavaScript `Math.round`: round half towards positive infinity. -/
def jsRound (x : ℚ) : ℤ := ⌊x + 1/2⌋

/-- Auction-level configuration (`auction.config`): default ceiling
(`start_price`) and default minimum decrement. -/
structure Config where
  start_price : ℚ
  min_decrement : ℚ

/-- One auction item; `start_price` and `min_decrement` are the optional
per-item overrides (0 = absent). -/
structure Item where
  quantity : ℚ
  start_price : ℚ
  min_decrement : ℚ

/-- Effective ceiling of an item: `item.start_price || auction.config?.start_price || 0`. -/
def effCeil (cfg : Config) (it : Item) : ℚ := jsOr it.start_price cfg.start_price

/-- Effective minimum decrement of an item:
`item.min_decrement || auction.config?.min_decrement || 0`. -/
def effDecr (cfg : Config) (it : Item) : ℚ := jsOr it.min_decrement cfg.min_decrement

/-- Machine-readable classification of the validation errors the two
`validateBidLocally` functions return (they return message strings; only
which rule fired matters here). -/
inductive BidErr
  | invalidPrice
  | aboveCeiling
  | offGrid
  | notBelowL1
deriving DecidableEq

/-- The decrement-grid test of both validators, in integer cents:
`diffCents <= 0 || diffCents % decrementCents !== 0` with
`startCents = Math.round(c*100)`, `priceCents = Math.round(p*100)`,
`decrementCents = Math.round(d*100)`. -/
def gridViolation (c d p : ℚ) : Bool :=
  let diff : ℤ := jsRound (c * 100) - jsRound (p * 100)
  decide (diff ≤ 0) || decide (diff % jsRound (d * 100) ≠ 0)

/-- Per-item checks of `validateBidLocally` in src/unnamed/part_007
(lines 190-212): positivity, ceiling (only when the effective ceiling is
positive), decrement grid (only when both the effective decrement and the
effective ceiling are positive). -/
def itemCheck (cfg : Config) (it : Item) (p : ℚ) : Option BidErr :=
  let c := effCeil cfg it
  let d := effDecr cfg it
  if p ≤ 0 then some BidErr.invalidPrice
  else if 0 < c ∧ c ≤ p then some BidErr.aboveCeiling
  else if (0 < d ∧ 0 < c) ∧ gridViolation c d p = true then some BidErr.offGrid
  else none

/-- The item loop of part_007's `validateBidLocally`: iterate over the bid
prices, look up the item at the same index (`if (!item) continue` skips
prices past the end of the item list), return the first error. -/
def itemChecks7 (cfg : Config) : List ℚ → List Item → Option BidErr
  | [], _ => none
  | _ :: _, [] => none
  | p :: ps, it :: its =>
    match itemCheck cfg it p with
    | some e => some e
    | none => itemChecks7 cfg ps its

/-- `(auction.items || []).reduce((sum, item) => sum +
(item.min_decrement || config.min_decrement || 0) * (item.quantity || 0), 0)`. -/
def sumDecr (cfg : Config) (items : List Item) : ℚ :=
  items.foldl (fun s it => s + effDecr cfg it * it.quantity) 0

/-- `validateBidLocally` of src/unnamed/part_007 (lines 185-227): per-item
checks, then, when `auction.current_l1` is truthy, the aggregate check
`totalAmount > current_l1 - (sumDecr || 1)`. -/
def validateBidLocally7 (cfg : Config) (items : List Item) (prices : List ℚ)
    (totalAmount : ℚ) (currentL1 : Option ℚ) : Option BidErr :=
  match itemChecks7 cfg prices items with
  | some e => some e
  | none =>
    match currentL1 with
    | none => none
    | some l1 =>
      if l1 = 0 then none
      else if totalAmount > l1 - jsOr (sumDecr cfg items) 1 then some BidErr.notBelowL1
      else none

/-- One iteration of the loop in `validateBidLocally` of
src/frontend/src/pages/SupplierBidding.js (lines 182-211).  `mx` is
`currentL1Unit - minDecrement` when `auction.current_l1` is truthy, else
`none` (the L1 check is skipped). -/
def feItemCheck (sp md : ℚ) (mx : Option ℚ) (p : ℚ) : Option BidErr :=
  if p ≤ 0 then some BidErr.invalidPrice
  else if sp ≤ p then some BidErr.aboveCeiling
  else if 0 < md ∧ gridViolation sp md p = true then some BidErr.offGrid
  else
    match mx with
    | some m => if m < p then some BidErr.notBelowL1 else none
    | none => none

/-- The price loop of the SupplierBidding.js validator. -/
def feLoop (sp md : ℚ) (mx : Option ℚ) : List ℚ → Option BidErr
  | [] => none
  | p :: ps =>
    match feItemCheck sp md mx p with
    | some e => some e
    | none => feLoop sp md mx ps

/-- `validateBidLocally` of src/frontend/src/pages/SupplierBidding.js
(lines 176-213): per-unit checks against the auction-level config only
(no per-item overrides), and a per-unit leader check against
`currentL1Unit = current_l1 / totalQty`. -/
def validateBidLocallyFE (cfg : Config) (items : List Item) (prices : List ℚ)
    (currentL1 : Option ℚ) : Option BidErr :=
  let sp := cfg.start_price
  let md := cfg.min_decrement
  let totalQty := jsOr (items.foldl (fun s it => s + it.quantity) 0) 1
  let mx : Option ℚ :=
    match currentL1 with
    | none => none
    | some v => if v = 0 then none else some (v / totalQty - md)
  feLoop sp md mx prices

/-! ### Supplier view (fetchAuction, src/unnamed/part_007 lines 93-127) -/

/-- One record of the `/auctions/{id}/bids` response as consumed by the
supplier page: the supplier's name, the bid's total, and its per-item unit
prices (`item_bids[idx].unit_price`; 0 encodes a missing entry, which the
code filters out the same way). -/
structure BidRec where
  supplier_name : String
  total_amount : ℚ
  item_prices : List ℚ
deriving DecidableEq

/-- `Math.min(...)` over a nonempty list, `null` when empty. -/
def listMin : List ℚ → Option ℚ
  | [] => none
  | x :: xs => some (xs.foldl min x)

/-- `allBids.length > 0 ? Math.min(...allBids.map(b => b.total_amount)) : null`. -/
def overallL1 (bids : List BidRec) : Option ℚ :=
  listMin (bids.map (·.total_amount))

/-- Item-wise L1 at index `idx`:
`allBids.map(b => b.item_bids[idx]?.unit_price).filter(p => p > 0)`, then
`Math.min` or `null`. -/
def itemL1 (bids : List BidRec) (idx : ℕ) : Option ℚ :=
  listMin ((bids.map (fun b => b.item_prices.getD idx 0)).filter (fun p => 0 < p))

/-- The auction state the supplier page keeps after `fetchAuction` plus the
rank/color delivered on its socket channel: this is the data the supplier's
own view is built from. -/
structure SupplierView where
  current_l1 : Option ℚ
  item_l1s : List (Option ℚ)
  bids_count : ℕ
  rank : ℕ
  color : String
deriving DecidableEq

/-- `setAuction({ ...auctionData, current_l1: l1Bid, item_l1s: itemL1s,
bids_count: allBids.length })` combined with the socket-delivered rank and
color. `nItems` is the length of `auctionData.items`. -/
def mkSupplierView (nItems : ℕ) (bids : List BidRec) (rank : ℕ) (color : String) :
    SupplierView :=
  { current_l1 := overallL1 bids
    item_l1s := (List.range nItems).map (itemL1 bids)
    bids_count := bids.length
    rank := rank
    color := color }

/-- The identity-free content of a bid record (total and unit prices). -/
def stripName (b : BidRec) : ℚ × List ℚ := (b.total_amount, b.item_prices)

/-- Modelled from the spec: the Ranking Engine (§4.2) is server-side code not
present under src/; rank = position by ascending total (1 + number of
strictly lower competitor totals; ties ignored here since the claims use
distinct totals). -/
def specRank (myTotal : ℚ) (otherTotals : List ℚ) : ℕ :=
  1 + (otherTotals.filter (fun t => t < myTotal)).length

/-- Modelled from the spec: the rank-color classification (§4.2), as consumed
by `getRankBadgeStyle`: rank 1 → green/leading, rank 2 → orange/close,
otherwise red/trailing. -/
def colorOfRank (r : ℕ) : String :=
  if r = 1 then "green" else if r = 2 then "orange" else "red"

/-! ### Supplier session state machine (part_007: handleSubmit lines 229-247,
handleConclude lines 274-285, fetchCurrentBid lines 129-149) -/

/-- A bid as stored/fetched for one supplier (the projection record). -/
structure StoredBid where
  item_prices : List ℚ
  total_amount : ℚ
  remarks : String
deriving DecidableEq

/-- The supplier-page state the concluded-guard logic operates on. -/
structure SessionState where
  concluded : Bool
  currentBid : Option StoredBid
deriving DecidableEq

/-- Environment of a submission: the auction's config, items and current
leader total, fixed during one event. -/
structure Env where
  cfg : Config
  items : List Item
  currentL1 : Option ℚ

/-- Events at the supplier interface: a bid submission attempt
(`handleSubmit`) or concluding (`handleConclude`). -/
inductive Event
  | submit (prices : List ℚ) (total : ℚ) (remarks : String)
  | conclude

/-- `handleSubmit`: rejected outright when `concluded`; rejected when
`totalAmount === 0`; rejected when `validateBidLocally` errors; otherwise the
bid is submitted and becomes the supplier's current bid.  `handleConclude`:
sets `concluded` and touches nothing else. -/
def step (env : Env) (s : SessionState) : Event → SessionState
  | Event.submit prices total remarks =>
    if s.concluded then s
    else if total = 0 then s
    else if (validateBidLocally7 env.cfg env.items prices total env.currentL1).isSome then s
    else { s with currentBid := some ⟨prices, total, remarks⟩ }
  | Event.conclude => { s with concluded := true }

/-- Run a sequence of events. -/
def steps (env : Env) (s : SessionState) : List Event → SessionState
  | [] => s
  | e :: es => steps env (step env s e) es

/-- Substring test on character lists (JavaScript `String.includes`). -/
def hasSubList (needle : List Char) : List Char → Bool
  | [] => needle.isEmpty
  | c :: rest => needle.isPrefixOf (c :: rest) || hasSubList needle rest

/-- `remarks.includes('[CONCLUDED]')`. -/
def containsConcluded (remarks : String) : Bool :=
  hasSubList "[CONCLUDED]".data remarks.data

/-- `fetchCurrentBid` (part_007 lines 129-149): store the fetched bid and set
`concluded` when the bid's remarks are nonempty and contain `[CONCLUDED]`
(the flag is never cleared). -/
def applyFetch (s : SessionState) (b : StoredBid) : SessionState :=
  { currentBid := some b
    concluded :=
      if b.remarks ≠ "" ∧ containsConcluded b.remarks = true then true else s.concluded }

/-- The state of a freshly opened supplier page (`concluded` initialised to
`false`, no current bid). -/
def freshSession : SessionState := ⟨false, none⟩

/-! ### Ledger model.  Modelled from the spec: the Bid Admission Coordinator
and Auction Ledger (§3 BidHistoryEntry, §4.3, §4.5) are server-side code not
present under src/; only their output is read by LiveAuction
(src/unnamed/part_005). -/

/-- One `BidHistoryEntry` as read by the buyer's ledger table and chart. -/
structure LedgerEntry where
  round : ℕ
  total_amount : ℚ
  decrement : ℚ
  l1_total_after : ℚ
deriving DecidableEq

/-- Modelled from the spec: on admission of a bid with total `t` against
previous leader total `prevL1`, the ledger entry's `decrement` is the
improvement over the previous leader's total when the bid becomes the new
leader, zero otherwise, and `l1_total_after` is the new leader total. -/
def ledgerEntry (prevL1 : Option ℚ) (round : ℕ) (t : ℚ) : LedgerEntry :=
  match prevL1 with
  | none => ⟨round, t, 0, t⟩
  | some l => if t < l then ⟨round, t, l - t, t⟩ else ⟨round, t, 0, l⟩

/-- Build the ledger from the sequence of admitted bid totals. -/
def buildLedger (prevL1 : Option ℚ) (round : ℕ) : List ℚ → List LedgerEntry
  | [] => []
  | t :: ts =>
    let e := ledgerEntry prevL1 round t
    e :: buildLedger (some e.l1_total_after) (round + 1) ts

/-- The monotonicity property read over consecutive ledger entries: the
leader total never increases, and strictly decreases exactly on entries with
positive `decrement`. -/
def ledgerMono : List LedgerEntry → Prop
  | [] => True
  | [_] => True
  | e :: e' :: rest =>
    (e'.l1_total_after ≤ e.l1_total_after ∧
      (e'.l1_total_after < e.l1_total_after ↔ 0 < e'.decrement)) ∧
    ledgerMono (e' :: rest)

/-! ### Helper lemmas -/

/-- With no current leader, part_007's validator is exactly its item loop. -/
lemma validate7_noLeader (cfg : Config) (items : List Item) (prices : List ℚ)
    (total : ℚ) :
    validateBidLocally7 cfg items prices total none = itemChecks7 cfg prices items := by
  unfold validateBidLocally7
  cases itemChecks7 cfg prices items <;> rfl

/-- If part_007's validator accepts, its item loop accepted. -/
lemma validate7_accept_items (cfg : Config) (items : List Item) (prices : List ℚ)
    (total : ℚ) (l1 : Option ℚ)
    (h : validateBidLocally7 cfg items prices total l1 = none) :
    itemChecks7 cfg prices items = none := by
  unfold validateBidLocally7 at h
  cases hic : itemChecks7 cfg prices items with
  | none => rfl
  | some e => rw [hic] at h; exact absurd h (by simp)

/-- If the item loop accepts, every price/item pair passed `itemCheck`. -/
lemma itemChecks7_accept (cfg : Config) :
    ∀ (prices : List ℚ) (items : List Item),
      itemChecks7 cfg prices items = none →
      ∀ p it, (p, it) ∈ List.zip prices items → itemCheck cfg it p = none := by
  intro prices
  induction prices with
  | nil => intro items _ p it hm; simp at hm
  | cons q qs ih =>
    intro items h p it hm
    cases items with
    | nil => simp at hm
    | cons j js =>
      cases hq : itemCheck cfg j q with
      | some e => rw [itemChecks7, hq] at h; exact absurd h (by simp)
      | none =>
        rw [itemChecks7, hq] at h
        rw [List.zip_cons_cons, List.mem_cons] at hm
        rcases hm with h1 | h2
        · rw [Prod.mk.injEq] at h1
          rw [h1.1, h1.2]
          exact hq
        · exact ih js h p it h2

/-- What a single accepted `itemCheck` guarantees: a positive price, below
the effective ceiling whenever the latter is positive. -/
lemma itemCheck_accept (cfg : Config) (it : Item) (p : ℚ)
    (h : itemCheck cfg it p = none) :
    0 < p ∧ (0 < effCeil cfg it → p < effCeil cfg it) := by
  simp only [itemCheck] at h
  split_ifs at h with h1 h2 h3
  refine ⟨not_le.mp h1, fun hc => ?_⟩
  by_contra hcp
  exact h2 ⟨hc, not_lt.mp hcp⟩

/-- One step preserves `concluded = true` and, in that case, the current bid. -/
lemma step_concluded (env : Env) (s : SessionState) (e : Event)
    (hs : s.concluded = true) :
    (step env s e).concluded = true ∧ (step env s e).currentBid = s.currentBid := by
  cases e with
  | submit prices total remarks => simp [step, hs]
  | conclude => exact ⟨rfl, rfl⟩

/-- A concluded session is inert: every later event sequence leaves the
concluded flag set and the current bid untouched. -/
lemma steps_concluded (env : Env) :
    ∀ (evs : List Event) (s : SessionState), s.concluded = true →
      (steps env s evs).concluded = true ∧ (steps env s evs).currentBid = s.currentBid := by
  intro evs
  induction evs with
  | nil => intro s hs; exact ⟨hs, rfl⟩
  | cons e es ih =>
    intro s hs
    obtain ⟨h1, h2⟩ := step_concluded env s e hs
    obtain ⟨h3, h4⟩ := ih (step env s e) h1
    exact ⟨h3, h4.trans h2⟩

/-- The pairwise relation between a ledger entry and its successor. -/
lemma ledgerEntry_pair (l t : ℚ) (r : ℕ) :
    (ledgerEntry (some l) r t).l1_total_after ≤ l ∧
      ((ledgerEntry (some l) r t).l1_total_after < l ↔
        0 < (ledgerEntry (some l) r t).decrement) := by
  simp only [ledgerEntry]
  split_ifs with h
  · refine ⟨le_of_lt h, ?_⟩
    show t < l ↔ 0 < l - t
    constructor <;> intro <;> linarith
  · simp

/-- Every ledger built from a sequence of admitted totals satisfies the
pairwise monotonicity property, whatever the starting leader and round. -/
lemma buildLedger_mono_aux :
    ∀ (totals : List ℚ) (prev : Option ℚ) (r : ℕ),
      ledgerMono (buildLedger prev r totals) := by
  intro totals
  induction totals with
  | nil => intro prev r; simp [buildLedger, ledgerMono]
  | cons t ts ih =>
    intro prev r
    cases ts with
    | nil => simp [buildLedger, ledgerMono]
    | cons t' ts' =>
      show ledgerMono (ledgerEntry prev r t ::
        ledgerEntry (some (ledgerEntry prev r t).l1_total_after) (r+1) t' ::
        buildLedger (some (ledgerEntry (some (ledgerEntry prev r t).l1_total_after)
          (r+1) t').l1_total_after) (r+1+1) ts')
      rw [ledgerMono]
      exact ⟨ledgerEntry_pair _ t' (r+1), ih (some (ledgerEntry prev r t).l1_total_after) (r+1)⟩

/-- With zero per-item overrides and a positive config ceiling, a part_007
item check coincides with a SupplierBidding.js loop iteration run with no
leader. -/
lemma itemCheck_eq_feItemCheck (cfg : Config) (it : Item) (p : ℚ)
    (h0 : it.start_price = 0) (h1 : it.min_decrement = 0)
    (hc : 0 < cfg.start_price) :
    itemCheck cfg it p = feItemCheck cfg.start_price cfg.min_decrement none p := by
  have hce : effCeil cfg it = cfg.start_price := by simp [effCeil, jsOr, h0]
  have hde : effDecr cfg it = cfg.min_decrement := by simp [effDecr, jsOr, h1]
  have hiff1 : (0 < cfg.start_price ∧ cfg.start_price ≤ p) ↔ cfg.start_price ≤ p :=
    ⟨And.right, fun hh => ⟨hc, hh⟩⟩
  have hiff2 :
      ((0 < cfg.min_decrement ∧ 0 < cfg.start_price) ∧
          gridViolation cfg.start_price cfg.min_decrement p = true) ↔
        (0 < cfg.min_decrement ∧
          gridViolation cfg.start_price cfg.min_decrement p = true) :=
    ⟨fun ⟨⟨a, _⟩, b⟩ => ⟨a, b⟩, fun ⟨a, b⟩ => ⟨⟨a, hc⟩, b⟩⟩
  simp only [itemCheck, feItemCheck, hce, hde, hiff1, hiff2]

/-! ### Claim theorems -/

/-- Claim C1: part_007's `validateBidLocally` rejects a bid unless its
aggregate total is strictly lower than the current leader's total by at least
the sum over items of quantity × effective minimum decrement; with no
leader, validation is exactly the per-item (ceiling / decrement-grid /
positivity) loop, with no aggregate rule applied. -/
theorem c1_aggregate_leader_gate (cfg : Config) (items : List Item)
    (prices : List ℚ) (total l1 : ℚ) (hl1 : l1 ≠ 0)
    (hS : 0 ≤ sumDecr cfg items) :
    (validateBidLocally7 cfg items prices total (some l1) = none →
      total < l1 ∧ sumDecr cfg items ≤ l1 - total)
    ∧ validateBidLocally7 cfg items prices total none =
        itemChecks7 cfg prices items := by
  refine ⟨fun h => ?_, validate7_noLeader cfg items prices total⟩
  unfold validateBidLocally7 at h
  cases hic : itemChecks7 cfg prices items with
  | some e => rw [hic] at h; exact absurd h (by simp)
  | none =>
    rw [hic] at h
    simp only [if_neg hl1] at h
    by_cases hgt : total > l1 - jsOr (sumDecr cfg items) 1
    · rw [if_pos hgt] at h; exact absurd h (by simp)
    · push_neg at hgt
      unfold jsOr at hgt
      by_cases hz : sumDecr cfg items = 0
      · rw [if_pos hz] at hgt
        rw [hz]
        constructor <;> linarith
      · rw [if_neg hz] at hgt
        have hpos : 0 < sumDecr cfg items := lt_of_le_of_ne hS (Ne.symm hz)
        constructor <;> linarith

/-- Witness for C1 at the concrete scenario: leader total 2540, bid 253/unit
on a 10-unit item with decrement 1. -/
theorem c1_witness :
    (2540 : ℚ) ≠ 0 ∧ 0 ≤ sumDecr ⟨255, 1⟩ [⟨10, 0, 0⟩] ∧
      ((validateBidLocally7 ⟨255, 1⟩ [⟨10, 0, 0⟩] [253] 2530 (some 2540) = none →
          (2530 : ℚ) < 2540 ∧ sumDecr ⟨255, 1⟩ [⟨10, 0, 0⟩] ≤ 2540 - 2530)
        ∧ validateBidLocally7 ⟨255, 1⟩ [⟨10, 0, 0⟩] [253] 2530 none =
            itemChecks7 ⟨255, 1⟩ [253] [⟨10, 0, 0⟩]) :=
  ⟨by norm_num, by norm_num [sumDecr, effDecr, jsOr],
    c1_aggregate_leader_gate ⟨255, 1⟩ [⟨10, 0, 0⟩] [253] 2530 2540
      (by norm_num) (by norm_num [sumDecr, effDecr, jsOr])⟩

/-- Claim C2 counterexample: with no per-item override, auction default
ceiling 0 and decrement 1 (so effective decrement d = 1 > 0), part_007's
per-item validation accepts a unit price of 5 although `(c − p)` in integer
cents (0 − 500 = −500) is not a positive integer multiple of d — the grid
rule is skipped because its `itemCeiling > 0` guard fails, so the claim as
stated over every effective ceiling is false. -/
theorem c2_counterexample :
    0 < effDecr ⟨0, 1⟩ ⟨1, 0, 0⟩ ∧
      itemCheck ⟨0, 1⟩ ⟨1, 0, 0⟩ 5 = none ∧
      ¬(0 < jsRound (effCeil ⟨0, 1⟩ ⟨1, 0, 0⟩ * 100) - jsRound ((5 : ℚ) * 100) ∧
        jsRound (effDecr ⟨0, 1⟩ ⟨1, 0, 0⟩ * 100) ∣
          (jsRound (effCeil ⟨0, 1⟩ ⟨1, 0, 0⟩ * 100) - jsRound ((5 : ℚ) * 100))) := by
  refine ⟨by norm_num [effDecr, jsOr], ?_, ?_⟩
  · norm_num [itemCheck, effCeil, effDecr, jsOr, gridViolation, jsRound]
  · intro h
    have := h.1
    norm_num [effCeil, jsOr, jsRound] at this

/-- Claim C2 as amended: with effective decrement d > 0 and a *positive*
effective ceiling c, an accepted unit price has `(ceiling − price)` an exact
positive multiple of d in integer-cents arithmetic; at c = 255, d = 1 the
grid admits 254 and rejects 254.5; an effective decrement of 0 never
produces a grid error (and an effective ceiling of 0 likewise disables the
grid rule, see the counterexample). -/
theorem c2_decrement_grid :
    (∀ (cfg : Config) (it : Item) (p : ℚ),
      0 < effDecr cfg it → 0 < effCeil cfg it → itemCheck cfg it p = none →
        0 < jsRound (effCeil cfg it * 100) - jsRound (p * 100) ∧
        jsRound (effDecr cfg it * 100) ∣
          (jsRound (effCeil cfg it * 100) - jsRound (p * 100)))
    ∧ itemCheck ⟨255, 1⟩ ⟨10, 0, 0⟩ 254 = none
    ∧ itemCheck ⟨255, 1⟩ ⟨10, 0, 0⟩ (509 / 2) = some BidErr.offGrid
    ∧ ∀ (cfg : Config) (it : Item) (p : ℚ),
        effDecr cfg it = 0 → itemCheck cfg it p ≠ some BidErr.offGrid := by
  refine ⟨fun cfg it p hd hc h => ?_, ?_, ?_, fun cfg it p hd => ?_⟩
  · simp only [itemCheck] at h
    split_ifs at h with h1 h2 h3
    have hng : ¬ gridViolation (effCeil cfg it) (effDecr cfg it) p = true := by
      intro hg
      exact h3 ⟨⟨hd, hc⟩, hg⟩
    simp only [gridViolation, Bool.or_eq_true, decide_eq_true_eq, not_or] at hng
    refine ⟨by linarith [not_lt.mpr (le_of_not_lt (fun hlt => hng.1 (le_of_lt hlt)))], ?_⟩
    · exact Int.dvd_of_emod_eq_zero (not_not.mp (fun hne => hng.2 hne))
  · norm_num [itemCheck, effCeil, effDecr, jsOr, gridViolation, jsRound]
  · norm_num [itemCheck, effCeil, effDecr, jsOr, gridViolation, jsRound]
  · simp only [itemCheck]
    split_ifs with h1 h2 h3
    · simp
    · simp
    · exact absurd h3.1.1 (by rw [hd]; exact lt_irrefl 0)
    · simp

/-- Witness for C2 at c = 255, d = 1, p = 254. -/
theorem c2_witness :
    0 < effDecr ⟨255, 1⟩ ⟨10, 0, 0⟩ ∧ 0 < effCeil ⟨255, 1⟩ ⟨10, 0, 0⟩ ∧
      itemCheck ⟨255, 1⟩ ⟨10, 0, 0⟩ 254 = none ∧
      (0 < jsRound (effCeil ⟨255, 1⟩ ⟨10, 0, 0⟩ * 100) - jsRound ((254 : ℚ) * 100) ∧
        jsRound (effDecr ⟨255, 1⟩ ⟨10, 0, 0⟩ * 100) ∣
          (jsRound (effCeil ⟨255, 1⟩ ⟨10, 0, 0⟩ * 100) - jsRound ((254 : ℚ) * 100))) :=
  ⟨by norm_num [effDecr, jsOr], by norm_num [effCeil, jsOr],
    by norm_num [itemCheck, effCeil, effDecr, jsOr, gridViolation, jsRound],
    c2_decrement_grid.1 ⟨255, 1⟩ ⟨10, 0, 0⟩ 254
      (by norm_num [effDecr, jsOr]) (by norm_num [effCeil, jsOr])
      (by norm_num [itemCheck, effCeil, effDecr, jsOr, gridViolation, jsRound])⟩

/-- Claim C3 counterexample: with no per-item override and auction default
ceiling 0, part_007's validator accepts a unit price of 5 although 5 is not
strictly below the effective ceiling (0), contradicting the claim that every
accepted price is below its item's effective ceiling. -/
theorem c3_counterexample :
    validateBidLocally7 ⟨0, 1⟩ [⟨1, 0, 0⟩] [5] 5 none = none ∧
      ¬((5 : ℚ) < effCeil ⟨0, 1⟩ ⟨1, 0, 0⟩) := by
  constructor
  · norm_num [validateBidLocally7, itemChecks7, itemCheck, effCeil, effDecr, jsOr,
      gridViolation, jsRound, sumDecr]
  · norm_num [effCeil, jsOr]

/-- Claim C3 as amended: part_007's validator rejects a bid unless every unit
price is strictly positive and, whenever the item's effective ceiling (item
override if nonzero, else the auction config default) is positive, strictly
below that effective ceiling; an effective ceiling of 0 disables the ceiling
rule for that item. -/
theorem c3_amended_ceiling_gate (cfg : Config) (items : List Item)
    (prices : List ℚ) (total : ℚ) (l1 : Option ℚ)
    (h : validateBidLocally7 cfg items prices total l1 = none) :
    ∀ p it, (p, it) ∈ List.zip prices items →
      0 < p ∧ (0 < effCeil cfg it → p < effCeil cfg it) := by
  intro p it hm
  exact itemCheck_accept cfg it p
    (itemChecks7_accept cfg prices items (validate7_accept_items cfg items prices total l1 h)
      p it hm)

/-- Witness for the amended C3 at ceiling 255, price 254. -/
theorem c3_witness :
    validateBidLocally7 ⟨255, 1⟩ [⟨10, 0, 0⟩] [254] 2540 none = none ∧
      (0 < (254 : ℚ) ∧
        (0 < effCeil ⟨255, 1⟩ ⟨10, 0, 0⟩ → (254 : ℚ) < effCeil ⟨255, 1⟩ ⟨10, 0, 0⟩)) :=
  ⟨by norm_num [validateBidLocally7, itemChecks7, itemCheck, effCeil, effDecr, jsOr,
      gridViolation, jsRound, sumDecr],
    c3_amended_ceiling_gate ⟨255, 1⟩ [⟨10, 0, 0⟩] [254] 2540 none
      (by norm_num [validateBidLocally7, itemChecks7, itemCheck, effCeil, effDecr, jsOr,
        gridViolation, jsRound, sumDecr])
      254 ⟨10, 0, 0⟩ (by simp)⟩

/-- Claim C4: in the one-item auction with ceiling 255/unit, decrement
1/unit, quantity 10: a first bid of 254/unit (total 2540) passes with no
leader; against leader total 2540, 254/unit fails the leader rule and
253/unit (total 2530) passes; the ledger then records the 2530 bid as the
new leader with decrement 10. -/
theorem c4_scenario :
    validateBidLocally7 ⟨255, 1⟩ [⟨10, 0, 0⟩] [254] 2540 none = none ∧
    validateBidLocally7 ⟨255, 1⟩ [⟨10, 0, 0⟩] [254] 2540 (some 2540) =
      some BidErr.notBelowL1 ∧
    validateBidLocally7 ⟨255, 1⟩ [⟨10, 0, 0⟩] [253] 2530 (some 2540) = none ∧
    buildLedger none 1 [2540, 2530] =
      [⟨1, 2540, 0, 2540⟩, ⟨2, 2530, 10, 2530⟩] := by
  refine ⟨?_, ?_, ?_, ?_⟩ <;>
    norm_num [validateBidLocally7, itemChecks7, itemCheck, effCeil, effDecr, jsOr,
      gridViolation, jsRound, sumDecr, buildLedger, ledgerEntry]

/-- Claim C5 counterexample: two auction states in which the supplier's own
bid, rank and color are identical, but the data delivered to that supplier's
view differs — because the view carries the overall and item-wise L1 derived
from a competitor's bid (total 100 vs 150).  Hence the view does not contain
only the supplier's own rank and color. -/
theorem c5_counterexample :
    specRank 200 [100] = specRank 200 [150] ∧
      colorOfRank (specRank 200 [100]) = colorOfRank (specRank 200 [150]) ∧
      mkSupplierView 1 [⟨"S1", 200, [200]⟩, ⟨"S2", 100, [100]⟩]
          (specRank 200 [100]) (colorOfRank (specRank 200 [100])) ≠
        mkSupplierView 1 [⟨"S1", 200, [200]⟩, ⟨"S2", 150, [150]⟩]
          (specRank 200 [150]) (colorOfRank (specRank 200 [150])) := by
  refine ⟨by norm_num [specRank], by norm_num [specRank, colorOfRank], ?_⟩
  norm_num [specRank, colorOfRank, mkSupplierView, overallL1, itemL1, listMin]

/-- Claim C5 as amended: the supplier view delivers, beyond the supplier's
rank and color, only price aggregates over all bids (minimum total, item-wise
minimum unit prices, bid count) — in particular no competitor identities:
two bid lists that agree after stripping the supplier names produce the same
view. -/
theorem c5_view_identity_free (nItems : ℕ) (bids bids' : List BidRec)
    (rank : ℕ) (color : String)
    (h : bids.map stripName = bids'.map stripName) :
    mkSupplierView nItems bids rank color = mkSupplierView nItems bids' rank color := by
  have hfst : bids.map (fun b => b.total_amount) = bids'.map (fun b => b.total_amount) := by
    have h' := congrArg (List.map Prod.fst) h
    simpa [List.map_map, Function.comp, stripName] using h'
  have hsnd : bids.map (fun b => b.item_prices) = bids'.map (fun b => b.item_prices) := by
    have h' := congrArg (List.map Prod.snd) h
    simpa [List.map_map, Function.comp, stripName] using h'
  have hlen : bids.length = bids'.length := by
    have h' := congrArg List.length h
    simpa using h'
  have hl1 : overallL1 bids = overallL1 bids' := by
    rw [overallL1, overallL1, hfst]
  have hil : ∀ idx, itemL1 bids idx = itemL1 bids' idx := by
    intro idx
    have hmap : bids.map (fun b => b.item_prices.getD idx 0) =
        bids'.map (fun b => b.item_prices.getD idx 0) := by
      have h1 := congrArg (List.map (fun l => List.getD l idx 0)) hsnd
      simpa [List.map_map, Function.comp] using h1
    rw [itemL1, itemL1, hmap]
  have hmapeq : (List.range nItems).map (itemL1 bids) =
      (List.range nItems).map (itemL1 bids') :=
    List.map_congr_left (fun idx _ => hil idx)
  unfold mkSupplierView
  rw [hl1, hmapeq, hlen]

/-- Witness for the amended C5: renaming the only supplier leaves the view
unchanged. -/
theorem c5_witness :
    ([⟨"A", 100, [100]⟩] : List BidRec).map stripName =
        ([⟨"B", 100, [100]⟩] : List BidRec).map stripName ∧
      mkSupplierView 1 [⟨"A", 100, [100]⟩] 1 "green" =
        mkSupplierView 1 [⟨"B", 100, [100]⟩] 1 "green" :=
  ⟨by simp [stripName],
    c5_view_identity_free 1 [⟨"A", 100, [100]⟩] [⟨"B", 100, [100]⟩] 1 "green"
      (by simp [stripName])⟩

/-- Claim C6: once a supplier session is concluded, every later event
sequence leaves the concluded flag set and the current bid untouched, every
submission attempt is rejected as a no-op, and concluding never alters the
current bid. -/
theorem c6_concluded_locks (env : Env) (s : SessionState)
    (hs : s.concluded = true) :
    (∀ evs, (steps env s evs).concluded = true ∧
      (steps env s evs).currentBid = s.currentBid)
    ∧ (∀ prices total remarks,
        step env s (Event.submit prices total remarks) = s)
    ∧ ∀ s' : SessionState, (step env s' Event.conclude).currentBid = s'.currentBid := by
  refine ⟨fun evs => steps_concluded env evs s hs,
    fun prices total remarks => ?_, fun s' => rfl⟩
  simp [step, hs]

/-- Witness for C6: a concluded session with a stored bid ignores a later
submission. -/
theorem c6_witness :
    (SessionState.mk true (some ⟨[1], 1, "r"⟩)).concluded = true ∧
      ((steps ⟨⟨255, 1⟩, [], none⟩ ⟨true, some ⟨[1], 1, "r"⟩⟩
          [Event.submit [2] 2 "x"]).concluded = true ∧
        (steps ⟨⟨255, 1⟩, [], none⟩ ⟨true, some ⟨[1], 1, "r"⟩⟩
          [Event.submit [2] 2 "x"]).currentBid =
          (SessionState.mk true (some ⟨[1], 1, "r"⟩)).currentBid) :=
  ⟨rfl, (c6_concluded_locks ⟨⟨255, 1⟩, [], none⟩ ⟨true, some ⟨[1], 1, "r"⟩⟩ rfl).1
    [Event.submit [2] 2 "x"]⟩

/-- Claim C7: over the ledger in round order, the leader total after each
entry never increases, and strictly decreases exactly on entries whose
recorded decrement is positive. -/
theorem c7_ledger_monotone (totals : List ℚ) :
    ledgerMono (buildLedger none 1 totals) :=
  buildLedger_mono_aux totals none 1

/-- Claim C8: when an item's effective ceiling resolves to 0, part_007's
per-item validation skips both the ceiling rule and the decrement-grid rule,
so exactly the strictly positive unit prices pass. -/
theorem c8_zero_ceiling_skips (cfg : Config) (it : Item) (p : ℚ)
    (hc : effCeil cfg it = 0) :
    itemCheck cfg it p = none ↔ 0 < p := by
  have hnl : ¬((0 : ℚ) < 0) := lt_irrefl 0
  simp only [itemCheck, hc]
  simp only [hnl, false_and, and_false, if_false]
  split_ifs with h1
  · simp [not_lt.mpr h1]
  · simp [not_le.mp h1]

/-- Witness for C8: config ceiling 0, no override, price 5. -/
theorem c8_witness :
    effCeil ⟨0, 1⟩ ⟨1, 0, 0⟩ = 0 ∧
      (itemCheck ⟨0, 1⟩ ⟨1, 0, 0⟩ 5 = none ↔ (0 : ℚ) < 5) :=
  ⟨by norm_num [effCeil, jsOr],
    c8_zero_ceiling_skips ⟨0, 1⟩ ⟨1, 0, 0⟩ 5 (by norm_num [effCeil, jsOr])⟩

/-- Claim C9 counterexample: with two quantity-1 items (ceiling 255,
decrement 1 from config) and leader total 500, the bid (254, 240) — total
494 — is accepted by part_007's aggregate-total validator but rejected by
SupplierBidding.js's per-unit validator (254 exceeds the leader's average
unit price 250 minus the decrement).  The two validators are not
equivalent. -/
theorem c9_counterexample :
    validateBidLocally7 ⟨255, 1⟩ [⟨1, 0, 0⟩, ⟨1, 0, 0⟩] [254, 240] 494 (some 500) =
        none ∧
      validateBidLocallyFE ⟨255, 1⟩ [⟨1, 0, 0⟩, ⟨1, 0, 0⟩] [254, 240] (some 500) =
        some BidErr.notBelowL1 := by
  constructor
  · norm_num [validateBidLocally7, itemChecks7, itemCheck, effCeil, effDecr, jsOr,
      gridViolation, jsRound, sumDecr]
  · norm_num [validateBidLocallyFE, feLoop, feItemCheck, jsOr, gridViolation, jsRound]

/-- Claim C9 as amended: the two validators disagree when a leader exists
(see the counterexample), but they agree on every bid when no leader exists,
provided the bid has one price per item, no per-item overrides are set, and
the config ceiling is positive. -/
theorem c9_agree_no_leader (cfg : Config) (items : List Item) (prices : List ℚ)
    (total : ℚ) (hlen : prices.length = items.length)
    (hplain : ∀ it ∈ items, it.start_price = 0 ∧ it.min_decrement = 0)
    (hc : 0 < cfg.start_price) :
    validateBidLocally7 cfg items prices total none =
      validateBidLocallyFE cfg items prices none := by
  rw [validate7_noLeader]
  simp only [validateBidLocallyFE]
  induction prices generalizing items with
  | nil =>
    cases items with
    | nil => rfl
    | cons j js => simp at hlen
  | cons p ps ih =>
    cases items with
    | nil => simp at hlen
    | cons j js =>
      have hj := hplain j (List.mem_cons_self j js)
      have hrest : ∀ it ∈ js, it.start_price = 0 ∧ it.min_decrement = 0 :=
        fun it hit => hplain it (List.mem_cons_of_mem j hit)
      have hlen' : ps.length = js.length := by simpa using hlen
      rw [itemChecks7, feLoop, itemCheck_eq_feItemCheck cfg j p hj.1 hj.2 hc]
      cases feItemCheck cfg.start_price cfg.min_decrement none p with
      | some e => rfl
      | none => exact ih js hlen' hrest

/-- Witness for the amended C9: one plain item, ceiling 255, price 254, no
leader — the two validators return the same result. -/
theorem c9_witness :
    ([254] : List ℚ).length = ([⟨10, 0, 0⟩] : List Item).length ∧
      (∀ it ∈ ([⟨10, 0, 0⟩] : List Item), it.start_price = 0 ∧ it.min_decrement = 0) ∧
      (0 : ℚ) < (Config.mk 255 1).start_price ∧
      validateBidLocally7 ⟨255, 1⟩ [⟨10, 0, 0⟩] [254] 2540 none =
        validateBidLocallyFE ⟨255, 1⟩ [⟨10, 0, 0⟩] [254] none :=
  ⟨rfl, by simp, by norm_num,
    c9_agree_no_leader ⟨255, 1⟩ [⟨10, 0, 0⟩] [254] 2540 rfl (by simp) (by norm_num)⟩

/-- Claim C10: at the supplier interface, a freshly loaded session is marked
concluded exactly when the fetched current bid's remarks contain the
substring "[CONCLUDED]", and in that case every submission attempt is a
rejected no-op — the concluded flag travels inside the free-text remarks
field. -/
theorem c10_concluded_marker (env : Env) (b : StoredBid) :
    (applyFetch freshSession b).concluded = containsConcluded b.remarks
    ∧ (containsConcluded b.remarks = true →
        ∀ prices total remarks,
          step env (applyFetch freshSession b) (Event.submit prices total remarks) =
            applyFetch freshSession b) := by
  have hkey : (applyFetch freshSession b).concluded = containsConcluded b.remarks := by
    by_cases hre : b.remarks = ""
    · have hz : (applyFetch freshSession b).concluded = false := by
        simp [applyFetch, freshSession, hre]
      rw [hz, hre]
      decide
    · by_cases hcc : containsConcluded b.remarks = true
      · simp [applyFetch, freshSession, hre, hcc]
      · have hf : containsConcluded b.remarks = false := by
          revert hcc; cases containsConcluded b.remarks <;> simp
        simp [applyFetch, freshSession, hf]
  refine ⟨hkey, fun hcc prices total remarks => ?_⟩
  have hc : (applyFetch freshSession b).concluded = true := hkey.trans hcc
  simp [step, hc]

/-- Witness for C10: a fetched bid whose remarks contain the marker yields a
concluded session that ignores a later submission. -/
theorem c10_witness :
    containsConcluded "ok [CONCLUDED]" = true ∧
      ((applyFetch freshSession ⟨[1], 1, "ok [CONCLUDED]"⟩).concluded =
          containsConcluded "ok [CONCLUDED]"
        ∧ step ⟨⟨255, 1⟩, [], none⟩ (applyFetch freshSession ⟨[1], 1, "ok [CONCLUDED]"⟩)
            (Event.submit [2] 2 "z") =
          applyFetch freshSession ⟨[1], 1, "ok [CONCLUDED]"⟩) :=
  ⟨by decide,
    ⟨(c10_concluded_marker ⟨⟨255, 1⟩, [], none⟩ ⟨[1], 1, "ok [CONCLUDED]"⟩).1,
      (c10_concluded_marker ⟨⟨255, 1⟩, [], none⟩ ⟨[1], 1, "ok [CONCLUDED]"⟩).2
        (by decide) [2] 2 "z"⟩⟩

end RevAuction
